import Mathlib

set_option maxRecDepth 10000

/-
Verification of the sub-wallet container of the SmutCoin wallet backend.

The data model follows WalletTypes.h and the operations follow the member
functions of SubWallets.cpp.  Fixed size byte strings (public keys, secret
keys, key images, hashes) are modelled as Nat; uint64_t values are Nat with
an explicit reduction modulo 2 ^ 64 wherever the source arithmetic can wrap.
External collaborators (the crypto, address, currency and clock modules) are
passed as explicit arguments, as are the outcomes of the cryptographically
seeded shuffles.  The class SubWallet (WalletBackend/SubWallet.cpp) is not
part of the sources; the few SubWallet members the container calls are
modelled from the specification and marked as such.
-/

namespace SmutCoin

/-- The uint64_t modulus. -/
def U64 : Nat := 2 ^ 64

/-- WalletTypes.h TransactionInput: one output observed on chain that belongs
to a sub-wallet. -/
structure TransactionInput where
  keyImage : Nat
  amount : Nat
  blockHeight : Nat
  transactionPublicKey : Nat
  transactionIndex : Nat
  globalOutputIndex : Nat
  key : Nat
  spendHeight : Nat
  unlockTime : Nat
  parentTransactionHash : Nat
deriving DecidableEq

/-- Modelled from the spec: an entry of a sub-wallet Input Ledger, a UTXO
together with its locked flag (set when a spend is submitted, cleared on
confirmation or cancellation).  The ledger itself lives in the SubWallet
class, which is not part of the sources. -/
structure LedgerEntry where
  input : TransactionInput
  locked : Bool
deriving DecidableEq

/-- WalletTypes.h TxInputAndOwner: an input together with the keys of the
sub-wallet that owns it. -/
structure TxInputAndOwner where
  input : TransactionInput
  publicSpendKey : Nat
  privateSpendKey : Nat
deriving DecidableEq

/-- WalletTypes.h Transaction: a journal entry mapping sub-wallet public
spend keys to signed amounts. -/
structure Transaction where
  transfers : List (Nat × Int)
  hash : Nat
  fee : Nat
  blockHeight : Nat
  timestamp : Nat
  paymentID : String
  unlockTime : Nat
  isCoinbaseTransaction : Bool
deriving DecidableEq

/-- The SubWallet record: identity plus its Input Ledger.  The class is
declared in WalletBackend/SubWallet.h, which is not part of the sources;
the fields are the ones the container constructors pass to it (public and
private spend key, address, scan height, timestamp, primary flag) plus the
ledger described by the spec.  View-wallet records have no private spend
key. -/
structure SubWallet where
  publicSpendKey : Nat
  privateSpendKey : Option Nat
  address : String
  syncStartHeight : Nat
  syncStartTimestamp : Nat
  isPrimaryAddress : Bool
  ledger : List LedgerEntry
deriving DecidableEq

/-- The WalletError codes of the error taxonomy that SubWallets.cpp
returns. -/
inductive WalletError where
  | SUCCESS
  | ILLEGAL_VIEW_WALLET_OPERATION
  | ILLEGAL_NON_VIEW_WALLET_OPERATION
  | SUBWALLET_ALREADY_EXISTS
  | NOT_ENOUGH_FUNDS
deriving DecidableEq

/-- The exceptions SubWallets.cpp can throw: std::runtime_error (from
throwIfViewWallet and the primary address getters), std::invalid_argument
(from getTransactionInputsForAmount) and std::out_of_range (from
unordered_map::at on a missing key). -/
inductive ThrownError where
  | runtimeError (msg : String)
  | invalidArgument (msg : String)
  | outOfRange
deriving DecidableEq

/-- The message of the std::runtime_error thrown by
SubWallets::throwIfViewWallet. -/
def viewWalletMsg : String :=
  "Wallet is a view wallet, but this function cannot be called in a view wallet"

/-- The message of the std::invalid_argument thrown by
SubWallets::getTransactionInputsForAmount. -/
def notEnoughMsg : String := "Not enough funds found!"

/-- Lookup in the m_subWallets unordered_map, modelled as an association
list with unique keys. -/
def mapLookup (k : Nat) : List (Nat × SubWallet) → Option SubWallet
  | [] => none
  | (k2, w) :: rest => if k2 = k then some w else mapLookup k rest

/-- Insert or assign in the m_subWallets unordered_map
(m_subWallets[k] = w): replace the mapping when the key is present,
otherwise add a new entry. -/
def mapInsert (k : Nat) (w : SubWallet) : List (Nat × SubWallet) → List (Nat × SubWallet)
  | [] => [(k, w)]
  | (k2, w2) :: rest =>
    if k2 = k then (k, w) :: rest else (k2, w2) :: mapInsert k w rest

/-- Modelled from the spec: SubWallet::getInputs (SubWallet.cpp is not in
the sources) returns the unspent, unlocked UTXOs of the ledger as
(input, public spend key, private spend key) triples. -/
def SubWallet.getInputs (w : SubWallet) : List TxInputAndOwner :=
  (w.ledger.filter (fun e => e.input.spendHeight == 0 && !e.locked)).map
    (fun e => ⟨e.input, w.publicSpendKey, w.privateSpendKey.getD 0⟩)

/-- Modelled from the spec: SubWallet::removeForkedInputs (SubWallet.cpp is
not in the sources): for each UTXO, if its block height is at or above the
fork height delete it, else if its spend height is at or above the fork
height unspend it (spend height zero, locked cleared). -/
def SubWallet.removeForkedInputs (forkHeight : Nat) (w : SubWallet) : SubWallet :=
  let unspend : LedgerEntry → LedgerEntry := fun e =>
    if forkHeight ≤ e.input.spendHeight
    then { input := { e.input with spendHeight := 0 }, locked := false }
    else e
  { w with ledger :=
      (w.ledger.filter (fun e => e.input.blockHeight < forkHeight)).map unspend }

/-- Modelled from the spec: SubWallet::markInputAsSpent (SubWallet.cpp is
not in the sources): set the spend height of the input with this key image
and clear its locked flag. -/
def SubWallet.markInputAsSpent (keyImage spendHeight : Nat) (w : SubWallet) : SubWallet :=
  { w with ledger := w.ledger.map (fun e =>
      if e.input.keyImage = keyImage
      then { input := { e.input with spendHeight := spendHeight }, locked := false }
      else e) }

/-- Modelled from the spec: SubWallet::markInputAsLocked (SubWallet.cpp is
not in the sources): set the locked flag of the input with this key image;
an unknown key image is ignored. -/
def SubWallet.markInputAsLocked (keyImage : Nat) (w : SubWallet) : SubWallet :=
  { w with ledger := w.ledger.map (fun e =>
      if e.input.keyImage = keyImage then { e with locked := true } else e) }

/-- The remove and erase pattern of SubWallets.cpp: std::remove_if compacts
the elements that do not satisfy the predicate to the front of the vector,
leaving the remaining slots holding the original suffix values (the fields
this model tracks are trivially copyable, so a moved from slot keeps its
value), and returns an iterator to the first leftover slot; the source then
calls the single element erase(it) when that iterator is not end().  Hence
when at least one element satisfies the predicate exactly one slot is
erased, however many elements satisfy it. -/
def cppRemoveIfErase (p : α → Bool) (xs : List α) : List α :=
  if (xs.filter (fun x => !(p x))).length = xs.length then xs
  else
    xs.filter (fun x => !(p x)) ++ xs.drop ((xs.filter (fun x => !(p x))).length + 1)

/-- The SubWallets container: the keyed collection of sub-wallet records,
the transaction journal, the shared private view key and the view flag.
The mutex only serializes the operations and has no sequential content. -/
structure SubWallets where
  subWallets : List (Nat × SubWallet)
  transactions : List Transaction
  lockedTransactions : List Transaction
  privateViewKey : Nat
  isViewWallet : Bool
  publicSpendKeys : List Nat
deriving DecidableEq

/-- The full wallet constructor: derive the public spend key from the
private one (Crypto::secret_key_to_public_key, passed as skToPk), create a
primary sub-wallet and record its public spend key.  The timestamp argument
stands for newWallet ? getCurrentTimestampAdjusted() : 0. -/
def SubWallets.mkFull (skToPk : Nat → Nat) (privateSpendKey privateViewKey : Nat)
    (addr : String) (scanHeight ts : Nat) : SubWallets :=
  { subWallets := [(skToPk privateSpendKey,
      { publicSpendKey := skToPk privateSpendKey
        privateSpendKey := some privateSpendKey
        address := addr
        syncStartHeight := scanHeight
        syncStartTimestamp := ts
        isPrimaryAddress := true
        ledger := [] })]
    transactions := []
    lockedTransactions := []
    privateViewKey := privateViewKey
    isViewWallet := false
    publicSpendKeys := [skToPk privateSpendKey] }

/-- The view wallet constructor: the public spend key decoded from the
address (Utilities::addressToKeys) is passed as an argument; the single
primary sub-wallet holds no private spend key and the view flag is set. -/
def SubWallets.mkView (publicSpendKey privateViewKey : Nat)
    (addr : String) (scanHeight ts : Nat) : SubWallets :=
  { subWallets := [(publicSpendKey,
      { publicSpendKey := publicSpendKey
        privateSpendKey := none
        address := addr
        syncStartHeight := scanHeight
        syncStartTimestamp := ts
        isPrimaryAddress := false
        ledger := [] })]
    transactions := []
    lockedTransactions := []
    privateViewKey := privateViewKey
    isViewWallet := true
    publicSpendKeys := [publicSpendKey] }

/-- SubWallets::addSubWallet: refuse on a view wallet, otherwise store a
fresh non primary sub-wallet with scan height zero under the generated
public spend key.  The generated key pair (Crypto::generate_keys), the
derived address and the adjusted timestamp are external and passed as
arguments.  The source inserts into m_subWallets and returns without
touching m_publicSpendKeys. -/
def SubWallets.addSubWallet (s : SubWallets) (genPk genSk ts : Nat) (addr : String) :
    WalletError × SubWallets :=
  if s.isViewWallet then (WalletError.ILLEGAL_VIEW_WALLET_OPERATION, s)
  else
    let w : SubWallet :=
      { publicSpendKey := genPk
        privateSpendKey := some genSk
        address := addr
        syncStartHeight := 0
        syncStartTimestamp := ts
        isPrimaryAddress := false
        ledger := [] }
    (WalletError.SUCCESS, { s with subWallets := mapInsert genPk w s.subWallets })

/-- SubWallets::importSubWallet: refuse on a view wallet, refuse a colliding
public spend key, otherwise store the sub-wallet and append its key to
m_publicSpendKeys. -/
def SubWallets.importSubWallet (s : SubWallets) (skToPk : Nat → Nat)
    (privateSpendKey scanHeight ts : Nat) (addr : String) :
    WalletError × SubWallets :=
  if s.isViewWallet then (WalletError.ILLEGAL_VIEW_WALLET_OPERATION, s)
  else
    if (mapLookup (skToPk privateSpendKey) s.subWallets).isSome then
      (WalletError.SUBWALLET_ALREADY_EXISTS, s)
    else
      let w : SubWallet :=
        { publicSpendKey := skToPk privateSpendKey
          privateSpendKey := some privateSpendKey
          address := addr
          syncStartHeight := scanHeight
          syncStartTimestamp := ts
          isPrimaryAddress := false
          ledger := [] }
      (WalletError.SUCCESS,
        { s with
          subWallets := mapInsert (skToPk privateSpendKey) w s.subWallets
          publicSpendKeys := s.publicSpendKeys ++ [skToPk privateSpendKey] })

/-- SubWallets::importViewSubWallet: refuse on a non view wallet, refuse a
colliding public spend key, otherwise store the view sub-wallet and append
its key to m_publicSpendKeys. -/
def SubWallets.importViewSubWallet (s : SubWallets)
    (publicSpendKey scanHeight ts : Nat) (addr : String) :
    WalletError × SubWallets :=
  if !s.isViewWallet then (WalletError.ILLEGAL_NON_VIEW_WALLET_OPERATION, s)
  else
    if (mapLookup publicSpendKey s.subWallets).isSome then
      (WalletError.SUBWALLET_ALREADY_EXISTS, s)
    else
      let w : SubWallet :=
        { publicSpendKey := publicSpendKey
          privateSpendKey := none
          address := addr
          syncStartHeight := scanHeight
          syncStartTimestamp := ts
          isPrimaryAddress := false
          ledger := [] }
      (WalletError.SUCCESS,
        { s with
          subWallets := mapInsert publicSpendKey w s.subWallets
          publicSpendKeys := s.publicSpendKeys ++ [publicSpendKey] })

/-- The std::min_element fold used by SubWallets::getMinInitialSyncStart:
keep the first element whose field value is strictly smallest. -/
def minBy (f : SubWallet → Nat) (kw : Nat × SubWallet)
    (rest : List (Nat × SubWallet)) : Nat × SubWallet :=
  rest.foldl (fun best y => if f y.2 < f best.2 then y else best) kw

/-- SubWallets::getMinInitialSyncStart: take the minimum sync start
timestamp and the minimum sync start height over all sub-wallets; if either
is zero return both unchanged, otherwise convert the height with the
external Utilities::scanHeightToTimestamp (passed as sht) and keep
whichever start is earlier, zeroing the other.  On an empty container the
source dereferences the end iterator (undefined behaviour); the model
returns (0, 0) there and every statement assumes at least one
sub-wallet. -/
def SubWallets.getMinInitialSyncStart (s : SubWallets) (sht : Nat → Nat) : Nat × Nat :=
  match s.subWallets with
  | [] => (0, 0)
  | kw :: rest =>
    let minTimestamp := (minBy (fun w => w.syncStartTimestamp) kw rest).2.syncStartTimestamp
    let minHeight := (minBy (fun w => w.syncStartHeight) kw rest).2.syncStartHeight
    if minHeight = 0 ∨ minTimestamp = 0 then (minHeight, minTimestamp)
    else if sht minHeight < minTimestamp then (minHeight, 0)
    else (0, minTimestamp)

/-- SubWallets::addUnconfirmedTransaction: append to
m_lockedTransactions. -/
def SubWallets.addUnconfirmedTransaction (s : SubWallets) (tx : Transaction) : SubWallets :=
  { s with lockedTransactions := s.lockedTransactions ++ [tx] }

/-- SubWallets::addTransaction: run the remove and erase pattern on
m_lockedTransactions with the predicate hash equality, then append the
transaction to m_transactions. -/
def SubWallets.addTransaction (s : SubWallets) (tx : Transaction) : SubWallets :=
  { s with
    lockedTransactions :=
      cppRemoveIfErase (fun t => t.hash == tx.hash) s.lockedTransactions
    transactions := s.transactions ++ [tx] }

/-- SubWallets::completeAndStoreTransactionInput: look the public spend key
up in m_subWallets; when present delegate to the sub-wallet (the delegate
SubWallet::completeAndStoreTransactionInput is not in the sources and is
abstracted as the store argument, with the derivation, output index, input
and view flag folded into it); when absent do nothing.  The member returns
void and throws nothing on the missing key path. -/
def SubWallets.completeAndStoreTransactionInput (s : SubWallets)
    (store : SubWallet → SubWallet) (publicSpendKey : Nat) : SubWallets :=
  match mapLookup publicSpendKey s.subWallets with
  | none => s
  | some w =>
    { s with subWallets := mapInsert publicSpendKey (store w) s.subWallets }

/-- SubWallets::throwIfViewWallet: throw a std::runtime_error when the
container is a view wallet. -/
def SubWallets.throwIfViewWallet (s : SubWallets) : Except ThrownError Unit :=
  if s.isViewWallet then Except.error (ThrownError.runtimeError viewWalletMsg)
  else Except.ok ()

/-- The wallet gathering loop shared by input selection: look each
requested public key up with unordered_map::at, which throws
std::out_of_range on a missing key. -/
def lookupWallets (m : List (Nat × SubWallet)) : List Nat → Except ThrownError (List SubWallet)
  | [] => Except.ok []
  | k :: ks =>
    match mapLookup k m with
    | none => Except.error ThrownError.outOfRange
    | some w =>
      match lookupWallets m ks with
      | Except.error e => Except.error e
      | Except.ok ws => Except.ok (w :: ws)

/-- The candidate gathering step shared by getTransactionInputsForAmount
and getFusionTransactionInputs: when takeFromAll is set replace the
requested keys with m_publicSpendKeys, fetch each sub-wallet with at() and
concatenate their getInputs results in order. -/
def SubWallets.gatherInputs (s : SubWallets) (takeFromAll : Bool) (keys : List Nat) :
    Except ThrownError (List TxInputAndOwner) :=
  match lookupWallets s.subWallets (if takeFromAll then s.publicSpendKeys else keys) with
  | Except.error e => Except.error e
  | Except.ok wallets => Except.ok ((wallets.map SubWallet.getInputs).flatten)

/-- The sum of the amounts of a list of gathered inputs. -/
def inputsTotal (l : List TxInputAndOwner) : Nat :=
  (l.map (fun x => x.input.amount)).sum

/-- The accumulation loop of SubWallets::getTransactionInputsForAmount:
push each input, add its amount to foundMoney (uint64_t arithmetic), and
return as soon as foundMoney reaches the target; when the loop exhausts
throw std::invalid_argument. -/
def accumulateInputs (target : Nat) (acc : List TxInputAndOwner) (found : Nat) :
    List TxInputAndOwner → Except ThrownError (List TxInputAndOwner × Nat)
  | [] => Except.error (ThrownError.invalidArgument notEnoughMsg)
  | x :: xs =>
    if target ≤ (found + x.input.amount) % U64 then
      Except.ok (acc ++ [x], (found + x.input.amount) % U64)
    else accumulateInputs target (acc ++ [x]) ((found + x.input.amount) % U64) xs

/-- SubWallets::getTransactionInputsForAmount: guard against view wallets,
gather the spendable inputs of the selected sub-wallets, shuffle them (the
outcome of the cryptographically seeded shuffle is the shuffle argument)
and accumulate until the target amount is reached. -/
def SubWallets.getTransactionInputsForAmount (s : SubWallets) (amount : Nat)
    (takeFromAll : Bool) (keys : List Nat)
    (shuffle : List TxInputAndOwner → List TxInputAndOwner) :
    Except ThrownError (List TxInputAndOwner × Nat) :=
  match s.throwIfViewWallet with
  | Except.error e => Except.error e
  | Except.ok _ =>
    match s.gatherInputs takeFromAll keys with
    | Except.error e => Except.error e
    | Except.ok gathered => accumulateInputs amount [] 0 (shuffle gathered)

/-- The bucket of candidates whose bucket index is d, in candidate order:
the source pushes each shuffled candidate into buckets[index], so a bucket
holds the candidates of its index in shuffled order. -/
def fusionBucket (digits : Nat → Nat) (cands : List TxInputAndOwner) (d : Nat) :
    List TxInputAndOwner :=
  cands.filter (fun x => digits x.input.amount == d)

/-- The harvesting loop of SubWallets::getFusionTransactionInputs: push
each input, add its amount to foundMoney (uint64_t arithmetic), and return
as soon as the number of inputs reaches maxInputsToTake. -/
def fusionTakeLoop (maxInputs : Nat) (acc : List TxInputAndOwner) (found : Nat) :
    List TxInputAndOwner → List TxInputAndOwner × Nat
  | [] => (acc, found)
  | x :: xs =>
    if maxInputs ≤ (acc ++ [x]).length then
      (acc ++ [x], (found + x.input.amount) % U64)
    else fusionTakeLoop maxInputs (acc ++ [x]) ((found + x.input.amount) % U64) xs

/-- SubWallets::getFusionTransactionInputs: guard against view wallets,
gather and shuffle the candidates, bucket them by the digit count of their
amount (the bucket index function, (int)std::log10 in the source, is the
digits argument; claim C8 concerns its definedness), keep the buckets with
at least FUSION_TX_MIN_INPUT_COUNT members (minCount), pick the first full
bucket after shuffling them, or concatenate all buckets when none is full,
and harvest up to maxInputs inputs (the result of the external
getApproximateMaximumInputCount).  The keyOrder argument is the order in
which the unordered bucket keys are visited, composed with the full bucket
shuffle; theorems quantify over it. -/
def SubWallets.getFusionTransactionInputs (s : SubWallets) (digits : Nat → Nat)
    (minCount maxInputs : Nat) (takeFromAll : Bool) (keys : List Nat)
    (shuffle : List TxInputAndOwner → List TxInputAndOwner) (keyOrder : List Nat) :
    Except ThrownError (List TxInputAndOwner × Nat × Nat) :=
  match s.throwIfViewWallet with
  | Except.error e => Except.error e
  | Except.ok _ =>
    match s.gatherInputs takeFromAll keys with
    | Except.error e => Except.error e
    | Except.ok gathered =>
      match keyOrder.filter
          (fun d => decide (minCount ≤ (fusionBucket digits (shuffle gathered) d).length)) with
      | k :: _ =>
        let r := fusionTakeLoop maxInputs [] 0 (fusionBucket digits (shuffle gathered) k)
        Except.ok (r.1, maxInputs, r.2)
      | [] =>
        let r := fusionTakeLoop maxInputs [] 0
          ((keyOrder.map (fusionBucket digits (shuffle gathered))).flatten)
        Except.ok (r.1, maxInputs, r.2)

/-- The bucket index computed at SubWallets.cpp line 448:
int numberOfDigits = log10(walletAmount.input.amount).  The amount is
converted to double; for a zero amount std::log10 returns negative
infinity and the conversion to int is undefined behaviour, modelled as
none.  For a positive amount the value is the integer part of the decimal
logarithm (up to double rounding at representation boundaries, which no
theorem below relies on). -/
def numberOfDigits (amount : Nat) : Option Nat :=
  if amount = 0 then none else some (Nat.log 10 amount)

/-- SubWallets::markInputAsSpent: guard against view wallets, then fetch
the owning sub-wallet with at() and mark the input spent. -/
def SubWallets.markInputAsSpent (s : SubWallets)
    (keyImage publicKey spendHeight : Nat) : Except ThrownError SubWallets :=
  match s.throwIfViewWallet with
  | Except.error e => Except.error e
  | Except.ok _ =>
    match mapLookup publicKey s.subWallets with
    | none => Except.error ThrownError.outOfRange
    | some w =>
      let m := mapInsert publicKey (SubWallet.markInputAsSpent keyImage spendHeight w) s.subWallets
      Except.ok { s with subWallets := m }

/-- SubWallets::markInputAsLocked: guard against view wallets, then fetch
the owning sub-wallet with at() and mark the input locked. -/
def SubWallets.markInputAsLocked (s : SubWallets)
    (keyImage publicKey : Nat) : Except ThrownError SubWallets :=
  match s.throwIfViewWallet with
  | Except.error e => Except.error e
  | Except.ok _ =>
    match mapLookup publicKey s.subWallets with
    | none => Except.error ThrownError.outOfRange
    | some w =>
      let m := mapInsert publicKey (SubWallet.markInputAsLocked keyImage w) s.subWallets
      Except.ok { s with subWallets := m }

/-- SubWallets::removeCancelledTransactions: guard against view wallets,
run the remove and erase pattern on m_lockedTransactions with the
predicate membership of the hash in the cancelled set, then let every
sub-wallet unlock its affected inputs (that SubWallet member is not in the
sources and is abstracted as the cancelLedger argument). -/
def SubWallets.removeCancelledTransactions (s : SubWallets)
    (cancelLedger : SubWallet → SubWallet) (cancelled : List Nat) :
    Except ThrownError SubWallets :=
  match s.throwIfViewWallet with
  | Except.error e => Except.error e
  | Except.ok _ =>
    Except.ok { s with
      lockedTransactions :=
        cppRemoveIfErase (fun t => cancelled.contains t.hash) s.lockedTransactions
      subWallets := s.subWallets.map (fun kw => (kw.1, cancelLedger kw.2)) }

/-- SubWallets::getLockedTransactionsHashes: guard against view wallets,
then collect the hashes of m_lockedTransactions into a set. -/
def SubWallets.getLockedTransactionsHashes (s : SubWallets) :
    Except ThrownError (List Nat) :=
  match s.throwIfViewWallet with
  | Except.error e => Except.error e
  | Except.ok _ => Except.ok ((s.lockedTransactions.map (fun t => t.hash)).dedup)

/-- SubWallets::removeForkedTransactions: run the remove and erase pattern
on m_transactions with the predicate block height at or above the fork
height, then roll back every sub-wallet ledger.  No view wallet guard is
present in the source. -/
def SubWallets.removeForkedTransactions (s : SubWallets) (forkHeight : Nat) : SubWallets :=
  { s with
    transactions :=
      cppRemoveIfErase (fun tx => decide (forkHeight ≤ tx.blockHeight)) s.transactions
    subWallets :=
      s.subWallets.map (fun kw => (kw.1, SubWallet.removeForkedInputs forkHeight kw.2)) }

/- Concrete fixtures used by the closed theorems and witnesses below. -/

/-- A journal entry fixture with the given hash and block height. -/
def mkTx (h bh : Nat) : Transaction :=
  { transfers := [], hash := h, fee := 0, blockHeight := bh, timestamp := 0,
    paymentID := "", unlockTime := 0, isCoinbaseTransaction := false }

/-- An unspent input fixture with the given key image and amount. -/
def mkInput (ki a : Nat) : TransactionInput :=
  { keyImage := ki, amount := a, blockHeight := 0, transactionPublicKey := 0,
    transactionIndex := 0, globalOutputIndex := 0, key := 0, spendHeight := 0,
    unlockTime := 0, parentTransactionHash := 0 }

/-- A sub-wallet holding one unspent, unlocked input of amount 5. -/
def w5 : SubWallet :=
  { publicSpendKey := 1, privateSpendKey := some 11, address := "",
    syncStartHeight := 0, syncStartTimestamp := 0, isPrimaryAddress := true,
    ledger := [{ input := mkInput 1 5, locked := false }] }

/-- A non view container whose only spendable input has amount 5. -/
def s5 : SubWallets :=
  { subWallets := [(1, w5)], transactions := [], lockedTransactions := [],
    privateViewKey := 0, isViewWallet := false, publicSpendKeys := [1] }

/-- The gathered form of the single input of s5. -/
def x5 : TxInputAndOwner :=
  { input := mkInput 1 5, publicSpendKey := 1, privateSpendKey := 11 }

/-- The gathered input list of s5. -/
def g5 : List TxInputAndOwner := [x5]

/-- A sub-wallet holding one unspent, unlocked input of amount 7. -/
def w7 : SubWallet :=
  { publicSpendKey := 1, privateSpendKey := some 11, address := "",
    syncStartHeight := 0, syncStartTimestamp := 0, isPrimaryAddress := true,
    ledger := [{ input := mkInput 2 7, locked := false }] }

/-- A non view container whose only spendable input has amount 7. -/
def sAmt7 : SubWallets :=
  { subWallets := [(1, w7)], transactions := [], lockedTransactions := [],
    privateViewKey := 0, isViewWallet := false, publicSpendKeys := [1] }

/-- The gathered form of the single input of sAmt7. -/
def x7 : TxInputAndOwner :=
  { input := mkInput 2 7, publicSpendKey := 1, privateSpendKey := 11 }

/-- The gathered input list of sAmt7. -/
def g7 : List TxInputAndOwner := [x7]

/-- A sub-wallet with an empty ledger. -/
def wEmpty : SubWallet :=
  { publicSpendKey := 1, privateSpendKey := some 11, address := "",
    syncStartHeight := 0, syncStartTimestamp := 0, isPrimaryAddress := true,
    ledger := [] }

/-- A non view container with no spendable inputs at all. -/
def sNoFunds : SubWallets :=
  { subWallets := [(1, wEmpty)], transactions := [], lockedTransactions := [],
    privateViewKey := 0, isViewWallet := false, publicSpendKeys := [1] }

/-- A view wallet container built with the view constructor. -/
def sView : SubWallets := SubWallets.mkView 5 9 "" 0 0

/-- A sub-wallet with sync start height 400000 and timestamp 700000. -/
def wSyncA : SubWallet :=
  { publicSpendKey := 1, privateSpendKey := some 11, address := "",
    syncStartHeight := 400000, syncStartTimestamp := 700000,
    isPrimaryAddress := true, ledger := [] }

/-- A sub-wallet with sync start height 600000 and timestamp 500000. -/
def wSyncB : SubWallet :=
  { publicSpendKey := 2, privateSpendKey := some 12, address := "",
    syncStartHeight := 600000, syncStartTimestamp := 500000,
    isPrimaryAddress := false, ledger := [] }

/-- A container whose minimum sync start height is 400000 and minimum sync
start timestamp is 500000, both nonzero. -/
def s6 : SubWallets :=
  { subWallets := [(1, wSyncA), (2, wSyncB)], transactions := [],
    lockedTransactions := [], privateViewKey := 0, isViewWallet := false,
    publicSpendKeys := [1, 2] }

/-- A digit count function fixture for the fusion witness. -/
def dgW : Nat → Nat := fun a => if a < 10 then 0 else 1

/-- Fusion candidate fixtures: one input of amount 5 and four inputs of
two digit amounts. -/
def xF5 : TxInputAndOwner :=
  { input := mkInput 1 5, publicSpendKey := 1, privateSpendKey := 11 }

def xF20 : TxInputAndOwner :=
  { input := mkInput 2 20, publicSpendKey := 1, privateSpendKey := 11 }

def xF50 : TxInputAndOwner :=
  { input := mkInput 3 50, publicSpendKey := 1, privateSpendKey := 11 }

def xF80 : TxInputAndOwner :=
  { input := mkInput 4 80, publicSpendKey := 1, privateSpendKey := 11 }

def xF81 : TxInputAndOwner :=
  { input := mkInput 5 81, publicSpendKey := 1, privateSpendKey := 11 }

/-- The gathered fusion candidate list of sFusion. -/
def gFusion : List TxInputAndOwner := [xF5, xF20, xF50, xF80, xF81]

/-- A sub-wallet holding the five fusion candidates. -/
def wFusion : SubWallet :=
  { publicSpendKey := 1, privateSpendKey := some 11, address := "",
    syncStartHeight := 0, syncStartTimestamp := 0, isPrimaryAddress := true,
    ledger := [{ input := mkInput 1 5, locked := false },
               { input := mkInput 2 20, locked := false },
               { input := mkInput 3 50, locked := false },
               { input := mkInput 4 80, locked := false },
               { input := mkInput 5 81, locked := false }] }

/-- A non view container whose candidates fill exactly one fusion bucket
(the two digit bucket, four members). -/
def sFusion : SubWallets :=
  { subWallets := [(1, wFusion)], transactions := [], lockedTransactions := [],
    privateViewKey := 0, isViewWallet := false, publicSpendKeys := [1] }

/-- The fusion selection result on sFusion with minCount 4 and maxInputs
100: the whole two digit bucket, in order, with its amount sum. -/
def rFusion : List TxInputAndOwner × Nat × Nat := ([xF20, xF50, xF80, xF81], 100, 231)

/-- A journal entry fixture with hash 9 at block height 100. -/
def txW : Transaction := mkTx 9 100

/-- A completely empty non view container. -/
def sBlank : SubWallets :=
  { subWallets := [], transactions := [], lockedTransactions := [],
    privateViewKey := 0, isViewWallet := false, publicSpendKeys := [] }

/-- A container whose locked journal already holds an entry with the hash
of txW. -/
def sC9 : SubWallets :=
  { subWallets := [], transactions := [], lockedTransactions := [txW],
    privateViewKey := 0, isViewWallet := false, publicSpendKeys := [] }

/-- Confirmed journal entries at block heights 10, 20 and 30. -/
def txH10 : Transaction := mkTx 1 10

def txH20 : Transaction := mkTx 2 20

def txH30 : Transaction := mkTx 3 30

/-- A container with confirmed journal entries at heights 10, 20 and 30. -/
def sFork : SubWallets :=
  { subWallets := [], transactions := [txH10, txH20, txH30],
    lockedTransactions := [], privateViewKey := 0, isViewWallet := false,
    publicSpendKeys := [] }

/-- A full wallet container whose primary sub-wallet has public spend key
107. -/
def c2Base : SubWallets := SubWallets.mkFull (fun k => k + 100) 7 9 "" 0 0

/-- A full wallet container whose only sub-wallet has public spend key 3. -/
def s10 : SubWallets := SubWallets.mkFull (fun k => k) 3 9 "" 0 0

/- Helper lemmas. -/

lemma inputsTotal_nil : inputsTotal [] = 0 := rfl

lemma inputsTotal_cons (x : TxInputAndOwner) (l : List TxInputAndOwner) :
    inputsTotal (x :: l) = x.input.amount + inputsTotal l := by
  simp [inputsTotal]

lemma inputsTotal_append (l1 l2 : List TxInputAndOwner) :
    inputsTotal (l1 ++ l2) = inputsTotal l1 + inputsTotal l2 := by
  simp [inputsTotal]

/-- The accumulation loop of the standard input selection, characterized:
assuming the grand total cannot wrap a uint64, the loop throws the not
enough funds error when the remaining list is empty or the grand total
misses the target, and otherwise succeeds with a prefix whose reported sum
is the exact sum of the returned inputs and reaches the target. -/
lemma accumulateInputs_spec (target : Nat) :
    ∀ (xs acc : List TxInputAndOwner),
      inputsTotal acc + inputsTotal xs < U64 →
      ((xs = [] ∨ inputsTotal acc + inputsTotal xs < target) →
        accumulateInputs target acc (inputsTotal acc) xs
          = Except.error (ThrownError.invalidArgument notEnoughMsg))
      ∧ (xs ≠ [] → target ≤ inputsTotal acc + inputsTotal xs →
        ∃ inputs, accumulateInputs target acc (inputsTotal acc) xs
            = Except.ok (inputs, inputsTotal inputs) ∧ target ≤ inputsTotal inputs) := by
  intro xs
  induction xs with
  | nil =>
    intro acc _
    exact ⟨fun _ => rfl, fun hne _ => absurd rfl hne⟩
  | cons x xs ih =>
    intro acc hov
    have hcons : inputsTotal (x :: xs) = x.input.amount + inputsTotal xs :=
      inputsTotal_cons x xs
    have hxa : inputsTotal acc + x.input.amount < U64 := by omega
    have hmod : (inputsTotal acc + x.input.amount) % U64
        = inputsTotal acc + x.input.amount := Nat.mod_eq_of_lt hxa
    have hacc2 : inputsTotal (acc ++ [x]) = inputsTotal acc + x.input.amount := by
      rw [inputsTotal_append, inputsTotal_cons, inputsTotal_nil]
      omega
    constructor
    · intro hcase
      rcases hcase with h | hlt
      · exact absurd h (List.cons_ne_nil x xs)
      · simp only [accumulateInputs, hmod]
        have hnotle : ¬ target ≤ inputsTotal acc + x.input.amount := by omega
        rw [if_neg hnotle]
        have hov2 : inputsTotal (acc ++ [x]) + inputsTotal xs < U64 := by
          rw [hacc2]; omega
        have herr := (ih (acc ++ [x]) hov2).1
        rw [hacc2] at herr
        apply herr
        by_cases hxs : xs = []
        · exact Or.inl hxs
        · exact Or.inr (by omega)
    · intro _ hge
      simp only [accumulateInputs, hmod]
      by_cases hle : target ≤ inputsTotal acc + x.input.amount
      · rw [if_pos hle]
        refine ⟨acc ++ [x], ?_, ?_⟩
        · rw [hacc2]
        · rw [hacc2]; exact hle
      · rw [if_neg hle]
        have hxs : xs ≠ [] := by
          intro h
          subst h
          rw [inputsTotal_nil] at hcons
          omega
        have hov2 : inputsTotal (acc ++ [x]) + inputsTotal xs < U64 := by
          rw [hacc2]; omega
        have hsucc := (ih (acc ++ [x]) hov2).2 hxs (by rw [hacc2]; omega)
        rw [hacc2] at hsucc
        exact hsucc

/-- The min element fold returns an element of the list. -/
lemma minBy_mem (f : SubWallet → Nat) :
    ∀ (rest : List (Nat × SubWallet)) (kw : Nat × SubWallet),
      minBy f kw rest ∈ kw :: rest := by
  intro rest
  induction rest with
  | nil => intro kw; simp [minBy]
  | cons y ys ih =>
    intro kw
    have hstep : minBy f kw (y :: ys)
        = minBy f (if f y.2 < f kw.2 then y else kw) ys := rfl
    rw [hstep]
    rcases List.mem_cons.mp (ih (if f y.2 < f kw.2 then y else kw)) with h1 | h2
    · by_cases hc : f y.2 < f kw.2
      · rw [if_pos hc] at h1 ⊢; rw [h1]; simp
      · rw [if_neg hc] at h1 ⊢; rw [h1]; simp
    · exact List.mem_cons_of_mem _ (List.mem_cons_of_mem _ h2)

/-- The min element fold returns an element whose field value is a lower
bound of the field values of the list. -/
lemma minBy_le (f : SubWallet → Nat) :
    ∀ (rest : List (Nat × SubWallet)) (kw x : Nat × SubWallet), x ∈ kw :: rest →
      f (minBy f kw rest).2 ≤ f x.2 := by
  intro rest
  induction rest with
  | nil =>
    intro kw x hx
    rcases List.mem_cons.mp hx with h | h
    · rw [h]; simp [minBy]
    · simp at h
  | cons y ys ih =>
    intro kw x hx
    have hstep : minBy f kw (y :: ys)
        = minBy f (if f y.2 < f kw.2 then y else kw) ys := rfl
    rw [hstep]
    by_cases hc : f y.2 < f kw.2
    · rw [if_pos hc]
      rcases List.mem_cons.mp hx with h1 | h1
      · rw [h1]
        exact (ih y y (List.mem_cons_self y ys)).trans hc.le
      · rcases List.mem_cons.mp h1 with h2 | h2
        · rw [h2]; exact ih y y (List.mem_cons_self y ys)
        · exact ih y x (List.mem_cons_of_mem y h2)
    · rw [if_neg hc]
      have hky : f kw.2 ≤ f y.2 := Nat.le_of_not_lt hc
      rcases List.mem_cons.mp hx with h1 | h1
      · rw [h1]; exact ih kw kw (List.mem_cons_self kw ys)
      · rcases List.mem_cons.mp h1 with h2 | h2
        · rw [h2]; exact (ih kw kw (List.mem_cons_self kw ys)).trans hky
        · exact ih kw x (List.mem_cons_of_mem kw h2)

/-- The min element fold computes exactly the minimum field value. -/
lemma minBy_value (f : SubWallet → Nat) (kw : Nat × SubWallet)
    (rest : List (Nat × SubWallet)) (m : Nat)
    (hmem : m ∈ (kw :: rest).map (fun p => f p.2))
    (hle : ∀ v ∈ (kw :: rest).map (fun p => f p.2), m ≤ v) :
    f (minBy f kw rest).2 = m := by
  have h1 : f (minBy f kw rest).2 ∈ (kw :: rest).map (fun p => f p.2) :=
    List.mem_map_of_mem _ (minBy_mem f rest kw)
  rcases List.mem_map.mp hmem with ⟨p, hp, hpm⟩
  have h2 : f (minBy f kw rest).2 ≤ m := hpm ▸ minBy_le f rest kw p hp
  exact Nat.le_antisymm h2 (hle _ h1)

/-- Every input returned by the fusion harvesting loop comes from the
accumulator or the remaining list. -/
lemma fusionTakeLoop_mem (maxInputs : Nat) :
    ∀ (xs acc : List TxInputAndOwner) (found : Nat) (x : TxInputAndOwner),
      x ∈ (fusionTakeLoop maxInputs acc found xs).1 → x ∈ acc ∨ x ∈ xs := by
  intro xs
  induction xs with
  | nil =>
    intro acc found x hx
    simp only [fusionTakeLoop] at hx
    exact Or.inl hx
  | cons y ys ih =>
    intro acc found x hx
    simp only [fusionTakeLoop] at hx
    by_cases hc : maxInputs ≤ (acc ++ [y]).length
    · rw [if_pos hc] at hx
      rcases List.mem_append.mp hx with h | h
      · exact Or.inl h
      · rw [List.mem_singleton] at h
        exact Or.inr (h ▸ List.mem_cons_self y ys)
    · rw [if_neg hc] at hx
      rcases ih (acc ++ [y]) _ x hx with h | h
      · rcases List.mem_append.mp h with h1 | h1
        · exact Or.inl h1
        · rw [List.mem_singleton] at h1
          exact Or.inr (h1 ▸ List.mem_cons_self y ys)
      · exact Or.inr (List.mem_cons_of_mem y h)

/-- The remove and erase pattern on a list with no matching element
followed by exactly one matching element at the end removes exactly that
element. -/
lemma cppRemoveIfErase_append_single (p : α → Bool) (l : List α) (x : α)
    (hl : ∀ t ∈ l, p t = false) (hx : p x = true) :
    cppRemoveIfErase p (l ++ [x]) = l := by
  have hkeep : (l ++ [x]).filter (fun t => !(p t)) = l := by
    rw [List.filter_append]
    have h1 : l.filter (fun t => !(p t)) = l :=
      List.filter_eq_self.mpr (fun a ha => by simp [hl a ha])
    have h2 : [x].filter (fun t => !(p t)) = [] := by simp [hx]
    rw [h1, h2, List.append_nil]
  unfold cppRemoveIfErase
  rw [hkeep]
  have hlen : l.length ≠ (l ++ [x]).length := by simp
  rw [if_neg hlen]
  have hdrop : (l ++ [x]).drop (l.length + 1) = [] := by
    apply List.drop_eq_nil_of_le
    simp
  rw [hdrop, List.append_nil]

/- Claim theorems. -/

/-- C1: the claim states that removeForkedTransactions(fork_height) removes
every confirmed journal entry with block height at or above the fork
height.  On a journal with entries at heights 10, 20 and 30 and fork height
20, the remove_if and single element erase pattern of the source removes
only the height 20 entry: the height 30 entry is still present afterwards,
so the claim fails on the code (the spec itself flags the single argument
erase as a bug). -/
theorem C1_remove_forked_single_erase :
    (sFork.removeForkedTransactions 20).transactions = [txH10, txH30]
    ∧ ∃ t ∈ (sFork.removeForkedTransactions 20).transactions, 20 ≤ t.blockHeight := by
  decide

/-- C2: the claim states that public_spend_keys always equals the key set
of sub_wallets, and in particular that addSubWallet appends the new public
spend key.  In the source addSubWallet inserts the generated key into
m_subWallets but never appends it to m_publicSpendKeys: starting from a
fresh full wallet, after one addSubWallet call the new key 1 is a key of
the sub-wallet map yet absent from public_spend_keys, so the invariant is
broken. -/
theorem C2_addSubWallet_key_not_recorded :
    (c2Base.addSubWallet 1 2 3 "").1 = WalletError.SUCCESS
    ∧ (mapLookup 1 (c2Base.addSubWallet 1 2 3 "").2.subWallets).isSome = true
    ∧ 1 ∉ (c2Base.addSubWallet 1 2 3 "").2.publicSpendKeys := by
  decide

/-- C3 (amended): on a view wallet container, every operation that needs a
private spend key — standard and fusion input selection, marking inputs
locked or spent, removing cancelled transactions and enumerating locked
transaction hashes — fails deterministically by throwing the untyped
std::runtime_error of throwIfViewWallet, not by returning the structured
ILLEGAL_VIEW_WALLET_OPERATION error (which only the sub-wallet management
operations use). -/
theorem C3_view_guard_throws (s : SubWallets) (hview : s.isViewWallet = true)
    (amount : Nat) (takeFromAll : Bool) (keys : List Nat)
    (shuffle : List TxInputAndOwner → List TxInputAndOwner)
    (digits : Nat → Nat) (minCount maxInputs : Nat) (keyOrder : List Nat)
    (keyImage publicKey spendHeight : Nat)
    (cancelLedger : SubWallet → SubWallet) (cancelled : List Nat) :
    s.getTransactionInputsForAmount amount takeFromAll keys shuffle
        = Except.error (ThrownError.runtimeError viewWalletMsg)
    ∧ s.getFusionTransactionInputs digits minCount maxInputs takeFromAll keys shuffle keyOrder
        = Except.error (ThrownError.runtimeError viewWalletMsg)
    ∧ s.markInputAsLocked keyImage publicKey
        = Except.error (ThrownError.runtimeError viewWalletMsg)
    ∧ s.markInputAsSpent keyImage publicKey spendHeight
        = Except.error (ThrownError.runtimeError viewWalletMsg)
    ∧ s.removeCancelledTransactions cancelLedger cancelled
        = Except.error (ThrownError.runtimeError viewWalletMsg)
    ∧ s.getLockedTransactionsHashes
        = Except.error (ThrownError.runtimeError viewWalletMsg) := by
  refine ⟨?_, ?_, ?_, ?_, ?_, ?_⟩ <;>
    simp [SubWallets.getTransactionInputsForAmount,
      SubWallets.getFusionTransactionInputs, SubWallets.markInputAsLocked,
      SubWallets.markInputAsSpent, SubWallets.removeCancelledTransactions,
      SubWallets.getLockedTransactionsHashes, SubWallets.throwIfViewWallet, hview]

/-- C3 witness: the amended theorem applied to the concrete view wallet
container sView and the markInputAsSpent operation. -/
theorem C3_view_guard_throws_witness :
    sView.markInputAsSpent 1 2 3 = Except.error (ThrownError.runtimeError viewWalletMsg) :=
  (C3_view_guard_throws sView rfl 0 true [] id id 0 0 [] 1 2 3 id []).2.2.2.1

/-- C3 counterexample: the claim states the scenario of constructing a view
wallet and calling getTransactionInputsForAmount(1, true, []) yields the
structured error ILLEGAL_VIEW_WALLET_OPERATION and that no raw runtime
exception ever surfaces; on the code the call surfaces the untyped
std::runtime_error thrown by throwIfViewWallet. -/
theorem C3_view_guard_counterexample :
    sView.getTransactionInputsForAmount 1 true [] id
      = Except.error (ThrownError.runtimeError viewWalletMsg) := rfl

/-- C8: the claim states that the fusion bucketing step assigns every
candidate a well defined bucket index and assigns amount zero to bucket
zero.  The source computes int(log10(amount)): at amount zero log10
returns negative infinity and the conversion to int is undefined
behaviour, so no bucket index is defined there, in particular not bucket
zero. -/
theorem C8_bucket_index_undefined_at_zero :
    numberOfDigits 0 = none ∧ numberOfDigits 0 ≠ some 0 := by
  decide

/-- C9 (amended): for a container whose locked journal holds no entry with
the hash of tx and whose confirmed journal holds no entry with the hash of
tx, addUnconfirmedTransaction(tx) followed by addTransaction(tx) leaves an
entry with the hash of tx exactly once in the confirmed journal (namely tx
itself) and no entry with that hash in the locked journal. -/
theorem C9_confirmation_collapse (s : SubWallets) (tx : Transaction)
    (hlocked : ∀ t ∈ s.lockedTransactions, t.hash ≠ tx.hash)
    (hconf : ∀ t ∈ s.transactions, t.hash ≠ tx.hash) :
    ((s.addUnconfirmedTransaction tx).addTransaction tx).transactions.countP
        (fun t => t.hash == tx.hash) = 1
    ∧ tx ∈ ((s.addUnconfirmedTransaction tx).addTransaction tx).transactions
    ∧ ∀ t ∈ ((s.addUnconfirmedTransaction tx).addTransaction tx).lockedTransactions,
        t.hash ≠ tx.hash := by
  have htrans : ((s.addUnconfirmedTransaction tx).addTransaction tx).transactions
      = s.transactions ++ [tx] := rfl
  have hlock2 : ((s.addUnconfirmedTransaction tx).addTransaction tx).lockedTransactions
      = cppRemoveIfErase (fun t => t.hash == tx.hash) (s.lockedTransactions ++ [tx]) := rfl
  have hre : cppRemoveIfErase (fun t => t.hash == tx.hash) (s.lockedTransactions ++ [tx])
      = s.lockedTransactions := by
    apply cppRemoveIfErase_append_single
    · intro t ht
      exact beq_eq_false_iff_ne.mpr (hlocked t ht)
    · exact beq_self_eq_true tx.hash
  refine ⟨?_, ?_, ?_⟩
  · rw [htrans, List.countP_append]
    have h0 : s.transactions.countP (fun t => t.hash == tx.hash) = 0 := by
      rw [List.countP_eq_zero]
      intro t ht
      simp [hconf t ht]
    have h1 : List.countP (fun t => t.hash == tx.hash) [tx] = 1 := by
      simp
    rw [h0, h1]
  · rw [htrans]
    exact List.mem_append_right _ (List.mem_singleton.mpr rfl)
  · rw [hlock2, hre]
    exact hlocked

/-- C9 witness: the amended theorem applied to the empty container and a
concrete transaction. -/
theorem C9_confirmation_collapse_witness :
    ((sBlank.addUnconfirmedTransaction txW).addTransaction txW).transactions.countP
        (fun t => t.hash == txW.hash) = 1
    ∧ txW ∈ ((sBlank.addUnconfirmedTransaction txW).addTransaction txW).transactions := by
  have h := C9_confirmation_collapse sBlank txW (by simp [sBlank]) (by simp [sBlank])
  exact ⟨h.1, h.2.1⟩

/-- C9 counterexample: the claim quantifies over every container state; on
a container whose locked journal already holds an entry with the hash of
tx, addUnconfirmedTransaction(tx) followed by addTransaction(tx) leaves an
entry of that hash in the locked journal (the remove_if and single element
erase pattern removes only one of the two matching entries), contradicting
the claimed absence. -/
theorem C9_confirmation_collapse_counterexample :
    ((sC9.addUnconfirmedTransaction txW).addTransaction txW).lockedTransactions = [txW]
    ∧ ∃ t ∈ ((sC9.addUnconfirmedTransaction txW).addTransaction txW).lockedTransactions,
        t.hash = txW.hash := by
  decide

/-- C10: calling completeAndStoreTransactionInput with a public spend key
that is not a key of the sub-wallet map returns normally (the member
returns void and throws nothing on this path) and leaves the whole
container state unchanged, whatever the per wallet completion does. -/
theorem C10_unknown_key_noop (s : SubWallets) (store : SubWallet → SubWallet)
    (pk : Nat) (h : mapLookup pk s.subWallets = none) :
    s.completeAndStoreTransactionInput store pk = s := by
  unfold SubWallets.completeAndStoreTransactionInput
  rw [h]

/-- C10 witness: the theorem applied to the concrete container s10 and the
absent key 42. -/
theorem C10_unknown_key_noop_witness :
    s10.completeAndStoreTransactionInput id 42 = s10 :=
  C10_unknown_key_noop s10 id 42 rfl

/-- C4 (amended): on a non view container, for every target amount and
every order the shuffle may produce, getTransactionInputsForAmount either
succeeds with a pair whose reported sum is the exact total of the returned
inputs and reaches the target, or throws the not enough funds error, and
it fails exactly when the gathered spendable input list is empty or its
total is below the target (assuming the grand total of the gathered
amounts does not wrap a uint64). -/
theorem C4_input_selection_spec (s : SubWallets) (amount : Nat)
    (takeFromAll : Bool) (keys : List Nat)
    (shuffle : List TxInputAndOwner → List TxInputAndOwner)
    (gathered : List TxInputAndOwner)
    (hview : s.isViewWallet = false)
    (hg : s.gatherInputs takeFromAll keys = Except.ok gathered)
    (hperm : (shuffle gathered).Perm gathered)
    (hov : inputsTotal gathered < U64) :
    ((gathered = [] ∨ inputsTotal gathered < amount) →
      s.getTransactionInputsForAmount amount takeFromAll keys shuffle
        = Except.error (ThrownError.invalidArgument notEnoughMsg))
    ∧ (gathered ≠ [] → amount ≤ inputsTotal gathered →
      ∃ inputs, s.getTransactionInputsForAmount amount takeFromAll keys shuffle
          = Except.ok (inputs, inputsTotal inputs) ∧ amount ≤ inputsTotal inputs) := by
  have hcall : s.getTransactionInputsForAmount amount takeFromAll keys shuffle
      = accumulateInputs amount [] 0 (shuffle gathered) := by
    simp [SubWallets.getTransactionInputsForAmount, SubWallets.throwIfViewWallet,
      hview, hg]
  have htot : inputsTotal (shuffle gathered) = inputsTotal gathered := by
    unfold inputsTotal
    exact List.Perm.sum_eq (hperm.map (fun x => x.input.amount))
  have hlen := hperm.length_eq
  have hov2 : inputsTotal [] + inputsTotal (shuffle gathered) < U64 := by
    rw [inputsTotal_nil, htot]; omega
  have hspec := accumulateInputs_spec amount (shuffle gathered) [] hov2
  rw [inputsTotal_nil] at hspec
  constructor
  · intro hcase
    rw [hcall]
    apply hspec.1
    rcases hcase with h | h
    · left
      rw [← List.length_eq_zero, hlen, List.length_eq_zero]
      exact h
    · right; omega
  · intro hne hge
    rw [hcall]
    have hne2 : shuffle gathered ≠ [] := by
      intro h
      exact hne (List.length_eq_zero.mp (by rw [← hlen, h, List.length_nil]))
    exact hspec.2 hne2 (by omega)

/-- C4 witness: the amended theorem applied to the concrete container s5
(one spendable input of amount 5) with target 7: the total misses the
target, so the call throws the not enough funds error. -/
theorem C4_input_selection_spec_witness :
    s5.getTransactionInputsForAmount 7 true [] id
      = Except.error (ThrownError.invalidArgument notEnoughMsg) :=
  (C4_input_selection_spec s5 7 true [] id g5 rfl rfl (List.Perm.refl g5)
    (by decide)).1 (Or.inr (by decide))

/-- C4 counterexample: the claim states the call fails with the not enough
funds error exactly when the total of all spendable inputs is below the
target; on a container with no spendable inputs and target 0 the total
(zero) is not below the target, yet the source pushes nothing, exhausts the
loop and throws. -/
theorem C4_input_selection_counterexample :
    sNoFunds.gatherInputs true [] = Except.ok []
    ∧ sNoFunds.getTransactionInputsForAmount 0 true [] id
        = Except.error (ThrownError.invalidArgument notEnoughMsg)
    ∧ ¬ inputsTotal [] < 0 :=
  ⟨rfl, rfl, by decide⟩

/-- C5 (amended): on a non view container, getTransactionInputsForAmount
with target 0 does not return the empty list: the loop body pushes an
input before testing the accumulated sum, so with at least one spendable
input it returns exactly the first shuffled input together with its
amount, and with no spendable input it throws the not enough funds
error. -/
theorem C5_zero_target (s : SubWallets) (takeFromAll : Bool) (keys : List Nat)
    (shuffle : List TxInputAndOwner → List TxInputAndOwner)
    (gathered : List TxInputAndOwner)
    (hview : s.isViewWallet = false)
    (hg : s.gatherInputs takeFromAll keys = Except.ok gathered) :
    (shuffle gathered = [] →
      s.getTransactionInputsForAmount 0 takeFromAll keys shuffle
        = Except.error (ThrownError.invalidArgument notEnoughMsg))
    ∧ (∀ x rest, shuffle gathered = x :: rest → x.input.amount < U64 →
      s.getTransactionInputsForAmount 0 takeFromAll keys shuffle
        = Except.ok ([x], x.input.amount)) := by
  have hcall : s.getTransactionInputsForAmount 0 takeFromAll keys shuffle
      = accumulateInputs 0 [] 0 (shuffle gathered) := by
    simp [SubWallets.getTransactionInputsForAmount, SubWallets.throwIfViewWallet,
      hview, hg]
  constructor
  · intro h; rw [hcall, h]; rfl
  · intro x rest h hx
    rw [hcall, h]
    simp only [accumulateInputs]
    rw [Nat.zero_add, Nat.mod_eq_of_lt hx, if_pos (Nat.zero_le _), List.nil_append]

/-- C5 witness: the amended theorem applied to the concrete container
sAmt7, whose single spendable input has amount 7: target 0 yields that one
input and sum 7. -/
theorem C5_zero_target_witness :
    sAmt7.getTransactionInputsForAmount 0 true [] id = Except.ok ([x7], 7) :=
  (C5_zero_target sAmt7 true [] id g7 rfl rfl).2 x7 [] rfl (by decide)

/-- C5 counterexample: the claim states the call with target 0 returns the
empty input list and sum 0; on the container s5 holding one spendable
input of amount 5 the call returns that input and sum 5 instead. -/
theorem C5_zero_target_counterexample :
    s5.getTransactionInputsForAmount 0 true [] id = Except.ok ([x5], 5)
    ∧ s5.getTransactionInputsForAmount 0 true [] id
        ≠ Except.ok ([], 0) := by
  refine ⟨rfl, fun h => ?_⟩
  rw [show s5.getTransactionInputsForAmount 0 true [] id
      = Except.ok ([x5], 5) from rfl] at h
  simp at h

/-- C6: for a container with at least one sub-wallet, with H the minimum
sync start height and T the minimum sync start timestamp over all
sub-wallets, getMinInitialSyncStart returns (H, T) when H or T is zero,
otherwise (H, 0) when scanHeightToTimestamp(H) is earlier than T and
(0, T) otherwise; in every case at most one component of the result is
nonzero. -/
theorem C6_min_initial_sync_start (s : SubWallets) (sht : Nat → Nat) (H T : Nat)
    (hne : s.subWallets ≠ [])
    (hHmem : H ∈ s.subWallets.map (fun p => p.2.syncStartHeight))
    (hHle : ∀ v ∈ s.subWallets.map (fun p => p.2.syncStartHeight), H ≤ v)
    (hTmem : T ∈ s.subWallets.map (fun p => p.2.syncStartTimestamp))
    (hTle : ∀ v ∈ s.subWallets.map (fun p => p.2.syncStartTimestamp), T ≤ v) :
    s.getMinInitialSyncStart sht
      = (if H = 0 ∨ T = 0 then (H, T) else if sht H < T then (H, 0) else (0, T))
    ∧ ((s.getMinInitialSyncStart sht).1 = 0 ∨ (s.getMinInitialSyncStart sht).2 = 0) := by
  have hmain : s.getMinInitialSyncStart sht
      = (if H = 0 ∨ T = 0 then (H, T) else if sht H < T then (H, 0) else (0, T)) := by
    rcases hsw : s.subWallets with _ | ⟨kw, rest⟩
    · exact absurd hsw hne
    · have hH : (minBy (fun w => w.syncStartHeight) kw rest).2.syncStartHeight = H := by
        apply minBy_value
        · rw [← hsw]; exact hHmem
        · intro v hv; exact hHle v (by rw [hsw]; exact hv)
      have hT : (minBy (fun w => w.syncStartTimestamp) kw rest).2.syncStartTimestamp = T := by
        apply minBy_value
        · rw [← hsw]; exact hTmem
        · intro v hv; exact hTle v (by rw [hsw]; exact hv)
      unfold SubWallets.getMinInitialSyncStart
      rw [hsw]
      simp only [hH, hT]
  refine ⟨hmain, ?_⟩
  rw [hmain]
  by_cases h1 : H = 0 ∨ T = 0
  · rw [if_pos h1]
    rcases h1 with h | h
    · exact Or.inl h
    · exact Or.inr h
  · rw [if_neg h1]
    by_cases h2 : sht H < T
    · rw [if_pos h2]; exact Or.inr rfl
    · rw [if_neg h2]; exact Or.inl rfl

/-- C6 witness: the theorem applied to the container s6 (minimum height
400000, minimum timestamp 500000, from different sub-wallets) with the
identity conversion: 400000 is earlier than 500000, so the sync starts
from the height. -/
theorem C6_min_initial_sync_start_witness :
    s6.getMinInitialSyncStart (fun h => h) = (400000, 0) := by
  have h := (C6_min_initial_sync_start s6 (fun h => h) 400000 500000 (by decide)
    (by decide) (by decide) (by decide) (by decide)).1
  rw [h]
  decide

/-- C7: on a non view container, whenever the list of full buckets (those
with at least minCount members, visited in the arbitrary order keyOrder
that models the unordered map traversal composed with the bucket shuffle)
is nonempty with head k, the bucket of k is full and every input returned
by getFusionTransactionInputs belongs to that single full bucket. -/
theorem C7_fusion_single_bucket (s : SubWallets) (digits : Nat → Nat)
    (minCount maxInputs : Nat) (takeFromAll : Bool) (keys : List Nat)
    (shuffle : List TxInputAndOwner → List TxInputAndOwner) (keyOrder : List Nat)
    (gathered : List TxInputAndOwner) (k : Nat) (krest : List Nat)
    (hview : s.isViewWallet = false)
    (hg : s.gatherInputs takeFromAll keys = Except.ok gathered)
    (hk : keyOrder.filter
        (fun d => decide (minCount ≤ (fusionBucket digits (shuffle gathered) d).length))
      = k :: krest) :
    minCount ≤ (fusionBucket digits (shuffle gathered) k).length
    ∧ ∀ r, s.getFusionTransactionInputs digits minCount maxInputs takeFromAll keys shuffle keyOrder
          = Except.ok r → ∀ x ∈ r.1, x ∈ fusionBucket digits (shuffle gathered) k := by
  have hkmem : k ∈ keyOrder.filter
      (fun d => decide (minCount ≤ (fusionBucket digits (shuffle gathered) d).length)) := by
    rw [hk]; exact List.mem_cons_self _ _
  have hpk := List.of_mem_filter hkmem
  have hfull : minCount ≤ (fusionBucket digits (shuffle gathered) k).length := by
    simpa using hpk
  refine ⟨hfull, ?_⟩
  intro r hr x hx
  have hcall : s.getFusionTransactionInputs digits minCount maxInputs takeFromAll keys shuffle keyOrder
      = Except.ok
          ((fusionTakeLoop maxInputs [] 0 (fusionBucket digits (shuffle gathered) k)).1,
            maxInputs,
            (fusionTakeLoop maxInputs [] 0 (fusionBucket digits (shuffle gathered) k)).2) := by
    simp [SubWallets.getFusionTransactionInputs, SubWallets.throwIfViewWallet,
      hview, hg, hk]
  rw [hcall] at hr
  have hre : r
      = ((fusionTakeLoop maxInputs [] 0 (fusionBucket digits (shuffle gathered) k)).1,
          maxInputs,
          (fusionTakeLoop maxInputs [] 0 (fusionBucket digits (shuffle gathered) k)).2) :=
    (Except.ok.inj hr).symm
  subst hre
  rcases fusionTakeLoop_mem maxInputs
      (fusionBucket digits (shuffle gathered) k) [] 0 x hx with h | h
  · exact absurd h (List.not_mem_nil x)
  · exact h

/-- C7 witness: the theorem applied to the concrete container sFusion with
minCount 4, maxInputs 100 and bucket keys [0, 1]: the two digit bucket
(index 1) is the only full one and the returned input of amount 20 lies in
it. -/
theorem C7_fusion_single_bucket_witness :
    4 ≤ (fusionBucket dgW (id gFusion) 1).length
    ∧ xF20 ∈ fusionBucket dgW (id gFusion) 1 := by
  have h := C7_fusion_single_bucket sFusion dgW 4 100 true [] id [0, 1] gFusion 1 []
    rfl rfl rfl
  exact ⟨h.1, h.2 rFusion rfl xF20 (by decide)⟩

end SmutCoin
